import Mathlib

/-!
Verification of `src/timeseries/TimeSeries.py`.

Shallow embedding: numeric values and times are rationals (`ℚ`).  The stored
time component (`self._time`) is either a Python `range(1, n+1)` object (the
default index branch of `__init__`, which does not listify) or a Python list;
`TimeRep` records this distinction because Python `==` never identifies a
range with a list.  Fallible methods return `Except PyErr _`.
-/

namespace TimeSeriesPy

/-- The object stored in `self._time`: either `range(1, n+1)` (default index
branch of `__init__`) or a Python list of numerics. -/
inductive TimeRep where
  | rng (n : Nat)
  | lst (l : List ℚ)
deriving Repr, DecidableEq

/-- The element sequence of `range(1, n+1)`: the rationals `1, 2, ..., n`. -/
def rangeList (n : Nat) : List ℚ :=
  (List.range n).map (fun (i : ℕ) => ((i : ℚ) + 1))

/-- The element sequence of the stored time object. -/
def TimeRep.toList : TimeRep → List ℚ
  | .rng n => rangeList n
  | .lst l => l

/-- Python `==` on the stored time objects: two ranges are equal iff they
denote the same sequence; two lists are equal elementwise; a range is never
equal to a list. -/
def TimeRep.pyEq : TimeRep → TimeRep → Bool
  | .rng n, .rng m => n == m
  | .lst a, .lst b => a == b
  | _, _ => false

/-- The state of a `TimeSeries` object: fields `_time`, `_value`,
`_timeseries`. -/
structure TS where
  time : TimeRep
  value : List ℚ
  timeseries : List (ℚ × ℚ)
deriving Repr, DecidableEq

/-- The exceptions the class raises. -/
inductive PyErr where
  | typeError
  | valueError
  | indexError
deriving Repr, DecidableEq

instance {ε α : Type} [DecidableEq ε] [DecidableEq α] : DecidableEq (Except ε α)
  | .error e, .error f =>
      decidable_of_iff (e = f) ⟨fun h => by rw [h], fun h => by injection h⟩
  | .error _, .ok _ => .isFalse (fun hc => Except.noConfusion hc)
  | .ok _, .error _ => .isFalse (fun hc => Except.noConfusion hc)
  | .ok a, .ok b =>
      decidable_of_iff (a = b) ⟨fun h => by rw [h], fun h => by injection h⟩

/-- The Python values that can flow into the methods we model: `None`, an
int, a list of numerics, a `range(1, n+1)` object, or a `TimeSeries`. -/
inductive PyV where
  | vnone
  | vint (i : ℤ)
  | vlist (l : List ℚ)
  | vrange (n : Nat)
  | vts (t : TS)
deriving Repr, DecidableEq

/-- Python truthiness.  A `TimeSeries` defines `__bool__` as `abs(self) > 0`
(2-norm of the values), which over `ℚ` holds iff some value is nonzero. -/
def pyTruthy : PyV → Bool
  | .vnone => false
  | .vint i => i != 0
  | .vlist l => !l.isEmpty
  | .vrange n => n != 0
  | .vts t => t.value.any (fun v => v != 0)

/-- `isinstance(x, collections.Sequence)` together with `list(x)`: lists and
ranges are sequences and listify to their elements; `None` and ints are not.
(The interface base class is not registered as a `collections.Sequence`, so a
`TimeSeries` argument is rejected as well.) -/
def asSeq : PyV → Option (List ℚ)
  | .vlist l => some l
  | .vrange n => some (rangeList n)
  | _ => none

/-- Re-inject a stored time object as a Python value (used when a method
passes `self._time` back to the constructor). -/
def TimeRep.toPyV : TimeRep → PyV
  | .rng n => .vrange n
  | .lst l => .vlist l

/-- `TimeSeries.__init__(input_value, input_time)`:
check `input_value` is a sequence; if `input_time` is truthy, check it is a
sequence of the same length and store `list(input_time)`; otherwise store
`range(1, len(input_value)+1)`.  Finally `_timeseries = list(zip(_time, _value))`. -/
def pyInit (input_value input_time : PyV) : Except PyErr TS :=
  match asSeq input_value with
  | none => .error .typeError
  | some vs =>
    if pyTruthy input_time then
      match asSeq input_time with
      | none => .error .typeError
      | some ts' =>
        if ts'.length ≠ vs.length then .error .valueError
        else .ok ⟨.lst ts', vs, List.zip ts' vs⟩
    else .ok ⟨.rng vs.length, vs, List.zip (rangeList vs.length) vs⟩

/-- Calling `TimeSeries(...)` with a list of positional arguments; any arity
other than two is a `TypeError` (`__init__` declares exactly
`(self, input_value, input_time)`, with no default for `input_time`). -/
def pyNew : List PyV → Except PyErr TS
  | [v, t] => pyInit v t
  | _ => .error .typeError

/-- The element sequence of `self._time`. -/
def TS.timeList (t : TS) : List ℚ := t.time.toList

/-- `TimeSeries.__len__`: `len(self._value)`. -/
def TS.len (t : TS) : Nat := t.value.length

/-- The constructor invariant: `_value` and `_time` have the same length and
`_timeseries` is their zip. -/
def TS.WF (t : TS) : Prop :=
  t.value.length = t.timeList.length ∧
  t.timeseries = List.zip t.timeList t.value

instance (t : TS) : Decidable t.WF := by
  unfold TS.WF; infer_instance

/-- An index argument to `__getitem__`/`__setitem__`: a step-1 slice with
optional bounds, an integer, or some other object. -/
inductive PyIndex where
  | slice (start stop : Option ℤ)
  | int (i : ℤ)
  | other
deriving Repr, DecidableEq

/-- Clamp a slice bound the way Python does for a sequence of length `len`. -/
def pyBound (len : Nat) (i : ℤ) : Nat :=
  if i < 0 then (max (i + len) 0).toNat else min i.toNat len

/-- Python step-1 slicing `l[a:b]` on a list. -/
def listSlice (l : List α) (a b : Option ℤ) : List α :=
  let s := match a with | none => 0 | some i => pyBound l.length i
  let e := match b with | none => l.length | some i => pyBound l.length i
  (l.drop s).take (e - s)

/-- Python integer-index normalization for a sequence of length `len`:
negative indices count from the end; out-of-range is `none` (`IndexError`). -/
def pyNorm (len : Nat) (i : ℤ) : Option Nat :=
  let j := if i < 0 then i + len else i
  if 0 ≤ j ∧ j < (len : ℤ) then some j.toNat else none

/-- `TimeSeries.__getitem__`: a slice builds
`TimeSeries(self._value[index], self._time[index])` (slicing a stored range
yields a range whose truthiness, length and listification agree with the
sliced element list, so we pass the sliced list); an integer returns
`self._timeseries[index]`; anything else is a `TypeError`. -/
def pyGetitem (self : TS) (index : PyIndex) : Except PyErr (TS ⊕ ℚ × ℚ) :=
  match index with
  | .slice a b =>
      (pyInit (.vlist (listSlice self.value a b))
              (.vlist (listSlice self.timeList a b))).map .inl
  | .int i =>
      match pyNorm self.timeseries.length i with
      | some j => .ok (.inr (self.timeseries.getD j (0, 0)))
      | none => .error .indexError
  | .other => .error .typeError

/-- `TimeSeries.__setitem__`: integer index only; sets
`self._value[index] = value` and
`self._timeseries[index] = (self._time[index], value)`. -/
def pySetitem (self : TS) (index : PyIndex) (v : ℚ) : Except PyErr TS :=
  match index with
  | .int i =>
      match pyNorm self.value.length i with
      | none => .error .indexError
      | some j =>
        match pyNorm self.timeList.length i with
        | none => .error .indexError
        | some k =>
          match pyNorm self.timeseries.length i with
          | none => .error .indexError
          | some m =>
            .ok ⟨self.time, self.value.set j v,
                 self.timeseries.set m (self.timeList.getD k 0, v)⟩
  | _ => .error .typeError

/-- The shared guard of the binary operations:
`len(self) != len(otherTS) or self._time != otherTS._time`. -/
def alignErr (self other : TS) : Bool :=
  self.value.length != other.value.length || !(self.time.pyEq other.time)

/-- `TimeSeries.__add__`. -/
def pyAdd (self : TS) (other : PyV) : Except PyErr TS :=
  match other with
  | .vts o =>
      if alignErr self o then .error .valueError
      else pyInit (.vlist (List.zipWith (· + ·) self.value o.value)) self.time.toPyV
  | _ => .error .typeError

/-- `TimeSeries.__sub__`. -/
def pySub (self : TS) (other : PyV) : Except PyErr TS :=
  match other with
  | .vts o =>
      if alignErr self o then .error .valueError
      else pyInit (.vlist (List.zipWith (· - ·) self.value o.value)) self.time.toPyV
  | _ => .error .typeError

/-- `TimeSeries.__mul__`. -/
def pyMul (self : TS) (other : PyV) : Except PyErr TS :=
  match other with
  | .vts o =>
      if alignErr self o then .error .valueError
      else pyInit (.vlist (List.zipWith (· * ·) self.value o.value)) self.time.toPyV
  | _ => .error .typeError

/-- `TimeSeries.__eq__`: after the same guards, compares `_timeseries`. -/
def pyEqOp (self : TS) (other : PyV) : Except PyErr Bool :=
  match other with
  | .vts o =>
      if alignErr self o then .error .valueError
      else .ok (self.timeseries == o.timeseries)
  | _ => .error .typeError

/-- `TimeSeries.__neg__`. -/
def pyNeg (self : TS) : Except PyErr TS :=
  pyInit (.vlist (self.value.map (fun v => -v))) self.time.toPyV

/-- `TimeSeries.__pos__`. -/
def pyPos (self : TS) : Except PyErr TS :=
  pyInit (.vlist self.value) self.time.toPyV

/-- One run of the `while counter < n` loop of `interpolate` for a single
query time `t`, with `fuel = n - counter` making the recursion structural:
returns the appended value (if any) and the counter after the loop exits. -/
def scanAux (time value : List ℚ) (n : Nat) (t : ℚ) : Nat → Nat → Option ℚ × Nat
  | 0, counter => (none, counter)
  | fuel + 1, counter =>
      if t < time.getD 0 0 then (some (value.getD 0 0), counter)
      else if time.getD (n - 1) 0 < t then (some (value.getD (n - 1) 0), counter)
      else if time.getD (counter - 1) 0 ≤ t ∧ t ≤ time.getD counter 0 then
        (some (t + t * ((value.getD counter 0 - value.getD (counter - 1) 0) /
                        (time.getD counter 0 - time.getD (counter - 1) 0))),
         counter)
      else scanAux time value n t fuel (counter + 1)

/-- The bracket scan starting at `counter`: the loop runs while
`counter < n`, i.e. for `n - counter` remaining steps. -/
def bracketScan (time value : List ℚ) (n : Nat) (t : ℚ) (counter : Nat) :
    Option ℚ × Nat :=
  scanAux time value n t (n - counter) counter

/-- The `for t in newTimes` loop of `interpolate`: the counter persists
across query times; returns the accumulated `newValues` and the final
counter. -/
def interpGoC (time value : List ℚ) (n : Nat) : List ℚ → Nat → List ℚ × Nat
  | [], counter => ([], counter)
  | t :: ts, counter =>
      let r := bracketScan time value n t counter
      match r.1 with
      | some v =>
          let rest := interpGoC time value n ts r.2
          (v :: rest.1, rest.2)
      | none => interpGoC time value n ts r.2

/-- `TimeSeries.interpolate(newTimes)`: run the scan with `counter = 1` and
`n = len(self._time)`, then build `TimeSeries(newValues, newTimes)`. -/
def pyInterpolate (self : TS) (newTimes : List ℚ) : Except PyErr TS :=
  let time := self.timeList
  let n := time.length
  pyInit (.vlist (interpGoC time self.value n newTimes 1).1) (.vlist newTimes)

end TimeSeriesPy

namespace TimeSeriesPy

/-! ### Basic lemmas about the constructor and representations -/

theorem rangeList_length (n : Nat) : (rangeList n).length = n := by
  rw [rangeList, List.length_map, List.length_range]

theorem rangeList_getD (n i : Nat) (hi : i < n) :
    (rangeList n).getD i 0 = (i : ℚ) + 1 := by
  rw [rangeList, List.getD_eq_getElem?_getD, List.getElem?_map,
    List.getElem?_range hi]
  rfl

theorem TimeRep.pyEq_refl (r : TimeRep) : r.pyEq r = true := by
  cases r <;> simp [TimeRep.pyEq]

theorem pyInit_ok_WF {v t : PyV} {s : TS} (h : pyInit v t = .ok s) : s.WF := by
  unfold pyInit at h
  split at h
  · exact absurd h (by simp)
  · split at h
    · split at h
      · exact absurd h (by simp)
      · split at h
        · exact absurd h (by simp)
        · injection h with h
          subst h
          refine ⟨?_, rfl⟩
          simp_all [TS.timeList, TimeRep.toList]
    · injection h with h
      subst h
      exact ⟨by simp [TS.timeList, TimeRep.toList, rangeList_length], rfl⟩

theorem pyInit_vlist_nonempty {w qs : List ℚ} (hqs : qs ≠ [])
    (hlen : qs.length = w.length) :
    pyInit (.vlist w) (.vlist qs) = .ok ⟨.lst qs, w, List.zip qs w⟩ := by
  simp [pyInit, asSeq, pyTruthy, hqs, hlen]

theorem pyInit_vlist_mismatch {w qs : List ℚ} (hqs : qs ≠ [])
    (hlen : qs.length ≠ w.length) :
    pyInit (.vlist w) (.vlist qs) = .error .valueError := by
  simp [pyInit, asSeq, pyTruthy, hqs, hlen]

theorem pyInit_falsy {w : List ℚ} {t : PyV} (ht : pyTruthy t = false) :
    pyInit (.vlist w) t =
      .ok ⟨.rng w.length, w, List.zip (rangeList w.length) w⟩ := by
  simp [pyInit, asSeq, ht]

theorem pyInit_toPyV (r : TimeRep) (w : List ℚ) (hw : w.length = r.toList.length) :
    ∃ c : TS, pyInit (.vlist w) r.toPyV = .ok c ∧ c.timeList = r.toList ∧
      c.value = w ∧ c.timeseries = List.zip r.toList w := by
  by_cases he : r.toList = []
  · have hw0 : w = [] := List.length_eq_zero.mp (by rw [hw, he]; rfl)
    have ht : pyTruthy r.toPyV = false := by
      cases r with
      | rng n =>
        have hn : n = 0 := by
          have hlen := rangeList_length n
          rw [show (TimeRep.rng n).toList = rangeList n from rfl] at he
          rw [he] at hlen
          simpa using hlen.symm
        simp [hn, TimeRep.toPyV, pyTruthy]
      | lst l =>
        simp_all [TimeRep.toList, TimeRep.toPyV, pyTruthy]
    subst hw0
    refine ⟨⟨.rng 0, [], []⟩, ?_, ?_, rfl, ?_⟩
    · rw [pyInit_falsy ht]
      rfl
    · rw [he]
      rfl
    · simp
  · have ht : pyTruthy r.toPyV = true := by
      cases r with
      | rng n =>
        have : n ≠ 0 := by
          intro h0
          exact he (by simp [h0, TimeRep.toList, rangeList])
        simp [TimeRep.toPyV, pyTruthy, this]
      | lst l => simp_all [TimeRep.toList, TimeRep.toPyV, pyTruthy]
    have hseq : asSeq r.toPyV = some r.toList := by
      cases r <;> rfl
    refine ⟨⟨.lst r.toList, w, List.zip r.toList w⟩, ?_, rfl, rfl, rfl⟩
    simp only [pyInit, show asSeq (PyV.vlist w) = some w from rfl, ht, if_true, hseq]
    simp [hw]

theorem TS.timeList_lst (l : List ℚ) (v : List ℚ) (p : List (ℚ × ℚ)) :
    TS.timeList ⟨.lst l, v, p⟩ = l := rfl

end TimeSeriesPy

namespace TimeSeriesPy

/-! ### List helpers -/

theorem getD_set_self (l : List α) (j : Nat) (v d : α) (h : j < l.length) :
    (l.set j v).getD j d = v := by
  rw [List.getD_eq_getElem?_getD, List.getElem?_set_self h]
  rfl

theorem getD_set_ne (l : List α) (i j : Nat) (v d : α) (h : i ≠ j) :
    (l.set i v).getD j d = l.getD j d := by
  rw [List.getD_eq_getElem?_getD, List.getElem?_set_ne h,
    ← List.getD_eq_getElem?_getD]

theorem zip_getD (l1 : List α) (l2 : List β) (j : Nat) (d1 : α) (d2 : β)
    (h1 : j < l1.length) (h2 : j < l2.length) :
    (List.zip l1 l2).getD j (d1, d2) = (l1.getD j d1, l2.getD j d2) := by
  induction l1 generalizing l2 j with
  | nil => simp at h1
  | cons a l1' ih =>
    cases l2 with
    | nil => simp at h2
    | cons b l2' =>
      cases j with
      | zero => rfl
      | succ j' =>
        simp only [List.zip_cons_cons, List.getD_cons_succ]
        exact ih l2' j' (by simpa using h1) (by simpa using h2)

theorem zip_set (l1 : List α) (l2 : List β) (j : Nat) (v : β) (d : α)
    (h1 : j < l1.length) :
    (List.zip l1 l2).set j (l1.getD j d, v) = List.zip l1 (l2.set j v) := by
  induction l1 generalizing l2 j with
  | nil => simp at h1
  | cons a l1' ih =>
    cases l2 with
    | nil => simp
    | cons b l2' =>
      cases j with
      | zero => rfl
      | succ j' =>
        simp only [List.zip_cons_cons, List.getD_cons_succ, List.set_cons_succ]
        rw [ih l2' j' (by simpa using h1)]

end TimeSeriesPy

namespace TimeSeriesPy

/-! ### Lemmas about the interpolation scan -/

theorem scanAux_finds (tm vl : List ℚ) (n : Nat) (t : ℚ) (k : Nat)
    (hlo : ¬ t < tm.getD 0 0) (hhi : ¬ tm.getD (n - 1) 0 < t)
    (hk : k < n) (hbr : tm.getD (k - 1) 0 ≤ t ∧ t ≤ tm.getD k 0) :
    ∀ m counter, k - counter = m → counter ≤ k →
      (∀ j, counter ≤ j → j < k → ¬(tm.getD (j - 1) 0 ≤ t ∧ t ≤ tm.getD j 0)) →
      scanAux tm vl n t (n - counter) counter =
        (some (t + t * ((vl.getD k 0 - vl.getD (k - 1) 0) /
                        (tm.getD k 0 - tm.getD (k - 1) 0))), k) := by
  intro m
  induction m with
  | zero =>
    intro counter hm hck _
    have hek : counter = k := by omega
    subst hek
    obtain ⟨f, hf⟩ : ∃ f, n - counter = f + 1 := ⟨n - counter - 1, by omega⟩
    rw [hf]
    simp only [scanAux]
    rw [if_neg hlo, if_neg hhi, if_pos hbr]
  | succ m ih =>
    intro counter hm hck hmin
    have hck' : counter < k := by omega
    obtain ⟨f, hf⟩ : ∃ f, n - counter = f + 1 := ⟨n - counter - 1, by omega⟩
    rw [hf]
    simp only [scanAux]
    rw [if_neg hlo, if_neg hhi, if_neg (hmin counter le_rfl hck')]
    have hf' : f = n - (counter + 1) := by omega
    rw [hf']
    exact ih (counter + 1) (by omega) (by omega)
      (fun j hj hjk => hmin j (by omega) hjk)

theorem bracketScan_finds (tm vl : List ℚ) (n : Nat) (t : ℚ) (k : Nat)
    (hlo : ¬ t < tm.getD 0 0) (hhi : ¬ tm.getD (n - 1) 0 < t)
    (hk : k < n) (h1k : 1 ≤ k)
    (hbr : tm.getD (k - 1) 0 ≤ t ∧ t ≤ tm.getD k 0)
    (hmin : ∀ j, 1 ≤ j → j < k → ¬(tm.getD (j - 1) 0 ≤ t ∧ t ≤ tm.getD j 0)) :
    bracketScan tm vl n t 1 =
      (some (t + t * ((vl.getD k 0 - vl.getD (k - 1) 0) /
                      (tm.getD k 0 - tm.getD (k - 1) 0))), k) :=
  scanAux_finds tm vl n t k hlo hhi hk hbr (k - 1) 1 (by omega) h1k hmin

theorem bracketScan_clamp (tm vl : List ℚ) (n : Nat) (t : ℚ) (counter : Nat)
    (hc : counter < n)
    (hq : t < tm.getD 0 0 ∨ tm.getD (n - 1) 0 < t) :
    bracketScan tm vl n t counter =
      (some (if t < tm.getD 0 0 then vl.getD 0 0 else vl.getD (n - 1) 0),
       counter) := by
  obtain ⟨f, hf⟩ : ∃ f, n - counter = f + 1 := ⟨n - counter - 1, by omega⟩
  rw [bracketScan, hf]
  simp only [scanAux]
  rcases hq with h | h
  · rw [if_pos h, if_pos h]
  · by_cases h0 : t < tm.getD 0 0
    · rw [if_pos h0, if_pos h0]
    · rw [if_neg h0, if_pos h, if_neg h0]

theorem interpGoC_clamp (tm vl : List ℚ) (n : Nat) (hn : 1 < n) (qs : List ℚ)
    (hq : ∀ q ∈ qs, q < tm.getD 0 0 ∨ tm.getD (n - 1) 0 < q) :
    interpGoC tm vl n qs 1 =
      (qs.map (fun q => if q < tm.getD 0 0 then vl.getD 0 0
                        else vl.getD (n - 1) 0), 1) := by
  induction qs with
  | nil => rfl
  | cons q qs' ih =>
    simp only [interpGoC]
    rw [bracketScan_clamp tm vl n q 1 (by omega) (hq q (by simp))]
    simp only []
    rw [ih (fun r hr => hq r (by simp [hr]))]
    simp

theorem interpGoC_length_le (tm vl : List ℚ) (n : Nat) :
    ∀ (qs : List ℚ) (c : Nat), (interpGoC tm vl n qs c).1.length ≤ qs.length := by
  intro qs
  induction qs with
  | nil => intro c; simp [interpGoC]
  | cons q qs' ih =>
    intro c
    simp only [interpGoC]
    cases h : (bracketScan tm vl n q c).1 with
    | none =>
      simp only [h]
      exact le_trans (ih _) (by simp)
    | some v =>
      simp only [h, List.length_cons]
      exact Nat.succ_le_succ (ih _)

theorem interpGoC_append (tm vl : List ℚ) (n : Nat) (p qs : List ℚ) (c : Nat) :
    interpGoC tm vl n (p ++ qs) c =
      ((interpGoC tm vl n p c).1 ++
         (interpGoC tm vl n qs (interpGoC tm vl n p c).2).1,
       (interpGoC tm vl n qs (interpGoC tm vl n p c).2).2) := by
  induction p generalizing c with
  | nil => simp [interpGoC]
  | cons x p' ih =>
    simp only [List.cons_append, interpGoC]
    cases h : (bracketScan tm vl n x c).1 with
    | none =>
      simp only [h]
      exact ih _
    | some v =>
      simp only [h, List.append_eq]
      rw [ih _]
      simp

end TimeSeriesPy

namespace TimeSeriesPy

/-- C1: For every TimeSeries and every query time `t` that falls inside a
bracket `[time[k-1], time[k]]` of the original series (the first such
bracket in the forward scan, with `time[0] <= t <= time[n-1]`),
`interpolate` returns for `t` the value
`t + t * ((value[k] - value[k-1]) / (time[k] - time[k-1]))`; in particular
`TimeSeries([1,2,3], [0,5,10]).interpolate([1])` yields the single value
`1.2` (the witness instantiates this at that series with `k = 1`). -/
theorem C1_interpolate_bracket_formula (ts : TS) (t : ℚ) (k : Nat)
    (hWF : ts.WF) (h1k : 1 ≤ k) (hk : k < ts.timeList.length)
    (hlo : ts.timeList.getD 0 0 ≤ t)
    (hhi : t ≤ ts.timeList.getD (ts.timeList.length - 1) 0)
    (hbr : ts.timeList.getD (k - 1) 0 ≤ t ∧ t ≤ ts.timeList.getD k 0)
    (hmin : ∀ j, 1 ≤ j → j < k →
      ¬(ts.timeList.getD (j - 1) 0 ≤ t ∧ t ≤ ts.timeList.getD j 0)) :
    pyInterpolate ts [t] =
      .ok ⟨.lst [t],
           [t + t * ((ts.value.getD k 0 - ts.value.getD (k - 1) 0) /
                     (ts.timeList.getD k 0 - ts.timeList.getD (k - 1) 0))],
           [(t, t + t * ((ts.value.getD k 0 - ts.value.getD (k - 1) 0) /
                         (ts.timeList.getD k 0 - ts.timeList.getD (k - 1) 0)))]⟩ := by
  have hscan := bracketScan_finds ts.timeList ts.value ts.timeList.length t k
    (not_lt.mpr hlo) (not_lt.mpr hhi) hk h1k hbr hmin
  simp only [pyInterpolate, interpGoC, hscan]
  rw [pyInit_vlist_nonempty (by simp) (by simp)]
  rfl

theorem C1_witness :
    pyInterpolate ⟨.lst [0, 5, 10], [1, 2, 3], [(0, 1), (5, 2), (10, 3)]⟩ [1]
      = .ok ⟨.lst [1], [(6 : ℚ)/5], [((1 : ℚ), (6 : ℚ)/5)]⟩ := by
  have h := C1_interpolate_bracket_formula
    ⟨.lst [0, 5, 10], [1, 2, 3], [(0, 1), (5, 2), (10, 3)]⟩ 1 1
    (by decide) (by omega) (by decide)
    (by norm_num [TS.timeList, TimeRep.toList, List.getD])
    (by norm_num [TS.timeList, TimeRep.toList, List.getD])
    (by norm_num [TS.timeList, TimeRep.toList, List.getD])
    (by intro j h1 h2; omega)
  rw [h]
  norm_num [TS.timeList, TimeRep.toList, List.getD]

end TimeSeriesPy

namespace TimeSeriesPy

/-- C2 counterexample: the claim "for every TimeSeries, interpolate clamps
out-of-range query times" fails on the code.  (a) For the one-pair series
`TimeSeries([1],[0])`, `interpolate([-100])` raises `ValueError` instead of
yielding the first value `1` (the bracket loop never runs when `n = 1`).
(b) For `TimeSeries([1,2,3],[0,5,10])`, the query `-100` in
`interpolate([7,1,-5])` is also not clamped: the degraded forward cursor is
already exhausted, no value is appended, and the call raises `ValueError`. -/
theorem C2_counterexample :
    pyInterpolate ⟨.lst [0], [1], [(0, 1)]⟩ [-100] = .error .valueError ∧
    pyInterpolate ⟨.lst [0, 5, 10], [1, 2, 3], [(0, 1), (5, 2), (10, 3)]⟩
        [7, 1, -5] = .error .valueError := by
  constructor
  · norm_num [pyInterpolate, interpGoC, bracketScan, scanAux, pyInit, asSeq,
      pyTruthy, TS.timeList, TimeRep.toList, List.getD]
  · norm_num [pyInterpolate, interpGoC, bracketScan, scanAux, pyInit, asSeq,
      pyTruthy, TS.timeList, TimeRep.toList, List.getD]

/-- C2 (amended): for every TimeSeries with at least two (time, value) pairs
and every query sequence all of whose entries are out of range, `interpolate`
clamps each entry: a query time strictly less than the first original time
yields the first original value, and one strictly greater than the last
original time yields the last original value; in particular
`TimeSeries([1,2,3],[0,5,10]).interpolate([-100,100])` yields `[1, 3]`. -/
theorem C2_clamp_out_of_range (ts : TS) (qs : List ℚ) (hWF : ts.WF)
    (hn : 2 ≤ ts.timeList.length)
    (hq : ∀ q ∈ qs, q < ts.timeList.getD 0 0 ∨
      ts.timeList.getD (ts.timeList.length - 1) 0 < q) :
    ∃ r, pyInterpolate ts qs = .ok r ∧
      r.value = qs.map (fun q => if q < ts.timeList.getD 0 0
        then ts.value.getD 0 0 else ts.value.getD (ts.timeList.length - 1) 0) ∧
      r.timeList = qs := by
  have hgo := interpGoC_clamp ts.timeList ts.value ts.timeList.length
    (by omega) qs hq
  simp only [pyInterpolate, hgo]
  cases qs with
  | nil =>
    simp only [List.map_nil]
    rw [pyInit_falsy (by simp [pyTruthy])]
    exact ⟨_, rfl, rfl, rfl⟩
  | cons q qs' =>
    rw [pyInit_vlist_nonempty (by simp) (by simp [List.length_map])]
    exact ⟨_, rfl, rfl, rfl⟩

theorem C2_witness :
    ∃ r, pyInterpolate ⟨.lst [0, 5, 10], [1, 2, 3], [(0, 1), (5, 2), (10, 3)]⟩
        [-100, 100] = .ok r ∧ r.value = [1, 3] ∧ r.timeList = [-100, 100] := by
  obtain ⟨r, h1, h2, h3⟩ := C2_clamp_out_of_range
    ⟨.lst [0, 5, 10], [1, 2, 3], [(0, 1), (5, 2), (10, 3)]⟩ [-100, 100]
    (by decide) (by norm_num [TS.timeList, TimeRep.toList])
    (by
      intro q hq
      simp only [List.mem_cons, List.not_mem_nil, or_false] at hq
      rcases hq with rfl | rfl
      · left
        norm_num [TS.timeList, TimeRep.toList, List.getD]
      · right
        norm_num [TS.timeList, TimeRep.toList, List.getD])
  refine ⟨r, h1, ?_, h3⟩
  rw [h2]
  norm_num [TS.timeList, TimeRep.toList, List.getD]

end TimeSeriesPy

namespace TimeSeriesPy

theorem zipWith_getD (f : ℚ → ℚ → ℚ) (l1 l2 : List ℚ) (i : Nat)
    (h1 : i < l1.length) (h2 : i < l2.length) :
    (List.zipWith f l1 l2).getD i 0 = f (l1.getD i 0) (l2.getD i 0) := by
  rw [List.getD_eq_getElem?_getD, List.getElem?_zipWith,
    List.getElem?_eq_getElem h1, List.getElem?_eq_getElem h2]
  simp [List.getD_eq_getElem?_getD, List.getElem?_eq_getElem, h1, h2]

theorem alignErr_false (a b : TS) (ha : a.WF) (hb : b.WF) (ht : a.time = b.time) :
    alignErr a b = false := by
  have hbl : b.value.length = a.value.length := by
    rw [ha.1, hb.1, TS.timeList, TS.timeList, ht]
  simp [alignErr, hbl, ht, TimeRep.pyEq_refl]

theorem binop_pyInit_ok (a b : TS) (f : ℚ → ℚ → ℚ) (ha : a.WF) (hb : b.WF)
    (ht : a.time = b.time) :
    ∃ c, pyInit (.vlist (List.zipWith f a.value b.value)) a.time.toPyV = .ok c ∧
      c.timeList = a.timeList ∧ c.value = List.zipWith f a.value b.value ∧
      ∀ i, i < a.value.length →
        c.value.getD i 0 = f (a.value.getD i 0) (b.value.getD i 0) := by
  have hbl : b.value.length = a.value.length := by
    rw [ha.1, hb.1, TS.timeList, TS.timeList, ht]
  have hw : (List.zipWith f a.value b.value).length = a.time.toList.length := by
    rw [List.length_zipWith, hbl, min_self]
    exact ha.1
  obtain ⟨c, hc, hct, hcv, _⟩ := pyInit_toPyV a.time _ hw
  refine ⟨c, hc, by rw [hct]; rfl, hcv, fun i hi => ?_⟩
  rw [hcv]
  exact zipWith_getD f _ _ i hi (by omega)

/-- C3: For every pair of TimeSeries `a, b` with identical time sequences,
`a + b`, `a - b`, and `a * b` each return a new TimeSeries whose time
sequence equals the operands' time sequence and whose value at every index
`i` is `a.values[i] + b.values[i]`, `a.values[i] - b.values[i]`, and
`a.values[i] * b.values[i]` respectively. -/
theorem C3_arith_pointwise (a b : TS) (ha : a.WF) (hb : b.WF)
    (ht : a.time = b.time) :
    (∃ c, pyAdd a (.vts b) = .ok c ∧ c.timeList = a.timeList ∧
       c.value = List.zipWith (· + ·) a.value b.value ∧
       ∀ i, i < a.value.length →
         c.value.getD i 0 = a.value.getD i 0 + b.value.getD i 0) ∧
    (∃ c, pySub a (.vts b) = .ok c ∧ c.timeList = a.timeList ∧
       c.value = List.zipWith (· - ·) a.value b.value ∧
       ∀ i, i < a.value.length →
         c.value.getD i 0 = a.value.getD i 0 - b.value.getD i 0) ∧
    (∃ c, pyMul a (.vts b) = .ok c ∧ c.timeList = a.timeList ∧
       c.value = List.zipWith (· * ·) a.value b.value ∧
       ∀ i, i < a.value.length →
         c.value.getD i 0 = a.value.getD i 0 * b.value.getD i 0) := by
  have halign := alignErr_false a b ha hb ht
  refine ⟨?_, ?_, ?_⟩
  · simp only [pyAdd, halign, Bool.false_eq_true, if_false]
    exact binop_pyInit_ok a b (· + ·) ha hb ht
  · simp only [pySub, halign, Bool.false_eq_true, if_false]
    exact binop_pyInit_ok a b (· - ·) ha hb ht
  · simp only [pyMul, halign, Bool.false_eq_true, if_false]
    exact binop_pyInit_ok a b (· * ·) ha hb ht

theorem C3_witness :
    (∃ c, pyAdd ⟨.lst [0, 1], [1, 2], [(0, 1), (1, 2)]⟩
        (.vts ⟨.lst [0, 1], [10, 20], [(0, 10), (1, 20)]⟩) = .ok c ∧
      c.timeList = [0, 1] ∧ c.value = [11, 22]) ∧
    (∃ c, pySub ⟨.lst [0, 1], [1, 2], [(0, 1), (1, 2)]⟩
        (.vts ⟨.lst [0, 1], [10, 20], [(0, 10), (1, 20)]⟩) = .ok c ∧
      c.value = [-9, -18]) ∧
    (∃ c, pyMul ⟨.lst [0, 1], [1, 2], [(0, 1), (1, 2)]⟩
        (.vts ⟨.lst [0, 1], [10, 20], [(0, 10), (1, 20)]⟩) = .ok c ∧
      c.value = [10, 40]) := by
  obtain ⟨⟨c1, h1, ht1, hv1, _⟩, ⟨c2, h2, _, hv2, _⟩, ⟨c3, h3, _, hv3, _⟩⟩ :=
    C3_arith_pointwise ⟨.lst [0, 1], [1, 2], [(0, 1), (1, 2)]⟩
      ⟨.lst [0, 1], [10, 20], [(0, 10), (1, 20)]⟩ (by decide) (by decide) rfl
  refine ⟨⟨c1, h1, by rw [ht1]; rfl, ?_⟩, ⟨c2, h2, ?_⟩, ⟨c3, h3, ?_⟩⟩
  · rw [hv1]
    norm_num
  · rw [hv2]
    norm_num
  · rw [hv3]
    norm_num

end TimeSeriesPy

namespace TimeSeriesPy

/-- C4 counterexample: the claimed "if and only if" fails on the code.  The
two series below are built from the same values `[5,7]` and element-wise
equal time sequences `1, 2` — one via the default index (stored as
`range(1,3)`), one via the explicit list `[1,2]` — yet every binary
operation raises `ValueError`, because Python `==` never identifies a range
with a list. -/
theorem C4_counterexample :
    pyInit (.vlist [5, 7]) .vnone = .ok ⟨.rng 2, [5, 7], [(1, 5), (2, 7)]⟩ ∧
    pyInit (.vlist [5, 7]) (.vlist [1, 2]) =
      .ok ⟨.lst [1, 2], [5, 7], [(1, 5), (2, 7)]⟩ ∧
    TimeRep.toList (.rng 2) = TimeRep.toList (.lst [1, 2]) ∧
    pyAdd ⟨.rng 2, [5, 7], [(1, 5), (2, 7)]⟩
      (.vts ⟨.lst [1, 2], [5, 7], [(1, 5), (2, 7)]⟩) = .error .valueError ∧
    pySub ⟨.rng 2, [5, 7], [(1, 5), (2, 7)]⟩
      (.vts ⟨.lst [1, 2], [5, 7], [(1, 5), (2, 7)]⟩) = .error .valueError ∧
    pyMul ⟨.rng 2, [5, 7], [(1, 5), (2, 7)]⟩
      (.vts ⟨.lst [1, 2], [5, 7], [(1, 5), (2, 7)]⟩) = .error .valueError ∧
    pyEqOp ⟨.rng 2, [5, 7], [(1, 5), (2, 7)]⟩
      (.vts ⟨.lst [1, 2], [5, 7], [(1, 5), (2, 7)]⟩) = .error .valueError := by
  refine ⟨?_, ?_, ?_, ?_, ?_, ?_, ?_⟩ <;>
    norm_num [pyInit, asSeq, pyTruthy, pyAdd, pySub, pyMul, pyEqOp, alignErr,
      TimeRep.pyEq, TimeRep.toList, rangeList, List.range_succ]

/-- C4 (amended): for two TimeSeries operands, each binary operation
(addition, subtraction, multiplication, equality) raises `ValueError` iff
the value lengths differ or the *stored* time sequences compare unequal
under Python `==`; a default range index never compares equal to an
explicit time list, even when element-wise equal, so this is strictly
stronger than element-wise misalignment. -/
theorem C4_valueError_iff (a b : TS) (ha : a.WF) (hb : b.WF) :
    ((pyAdd a (.vts b) = .error .valueError) ↔
       (a.value.length ≠ b.value.length ∨ a.time.pyEq b.time = false)) ∧
    ((pySub a (.vts b) = .error .valueError) ↔
       (a.value.length ≠ b.value.length ∨ a.time.pyEq b.time = false)) ∧
    ((pyEqOp a (.vts b) = .error .valueError) ↔
       (a.value.length ≠ b.value.length ∨ a.time.pyEq b.time = false)) ∧
    ((pyMul a (.vts b) = .error .valueError) ↔
       (a.value.length ≠ b.value.length ∨ a.time.pyEq b.time = false)) := by
  have key : alignErr a b = true ↔
      (a.value.length ≠ b.value.length ∨ a.time.pyEq b.time = false) := by
    simp [alignErr]
  by_cases hal : alignErr a b = true
  · refine ⟨?_, ?_, ?_, ?_⟩ <;>
      simp only [pyAdd, pySub, pyEqOp, pyMul, hal, if_true] <;>
      simp only [eq_self_iff_true, true_iff] <;>
      exact key.mp hal
  · have hal' : alignErr a b = false := by
      simpa using hal
    have hrhs : ¬(a.value.length ≠ b.value.length ∨ a.time.pyEq b.time = false) :=
      fun h => hal (key.mpr h)
    have hlen : (List.zipWith (fun x y => x + y) a.value b.value).length =
        a.time.toList.length ∧
        (List.zipWith (fun x y => x - y) a.value b.value).length =
        a.time.toList.length ∧
        (List.zipWith (fun x y => x * y) a.value b.value).length =
        a.time.toList.length := by
      push_neg at hrhs
      refine ⟨?_, ?_, ?_⟩ <;>
        rw [List.length_zipWith, hrhs.1, min_self, ← hrhs.1, ha.1] <;> rfl
    obtain ⟨c1, hc1, _⟩ := pyInit_toPyV a.time _ hlen.1
    obtain ⟨c2, hc2, _⟩ := pyInit_toPyV a.time _ hlen.2.1
    obtain ⟨c3, hc3, _⟩ := pyInit_toPyV a.time _ hlen.2.2
    refine ⟨?_, ?_, ?_, ?_⟩
    · simp only [pyAdd, hal', Bool.false_eq_true, if_false, hc1]
      exact ⟨fun h => absurd h (by simp), fun h => absurd h hrhs⟩
    · simp only [pySub, hal', Bool.false_eq_true, if_false, hc2]
      exact ⟨fun h => absurd h (by simp), fun h => absurd h hrhs⟩
    · simp only [pyEqOp, hal', Bool.false_eq_true, if_false]
      exact ⟨fun h => absurd h (by simp), fun h => absurd h hrhs⟩
    · simp only [pyMul, hal', Bool.false_eq_true, if_false, hc3]
      exact ⟨fun h => absurd h (by simp), fun h => absurd h hrhs⟩

theorem C4_witness :
    pyMul ⟨.rng 2, [5, 7], [(1, 5), (2, 7)]⟩
      (.vts ⟨.lst [1, 2], [5, 7], [(1, 5), (2, 7)]⟩) = .error .valueError := by
  have h := C4_valueError_iff ⟨.rng 2, [5, 7], [(1, 5), (2, 7)]⟩
    ⟨.lst [1, 2], [5, 7], [(1, 5), (2, 7)]⟩
    (by constructor <;> norm_num [TS.timeList, TimeRep.toList, rangeList,
      List.range_succ, List.zip])
    (by decide)
  exact h.2.2.2.mpr (Or.inr (by decide))

end TimeSeriesPy

namespace TimeSeriesPy

/-- C5: For every TimeSeries `a` and every operand `x` that is not a
TimeSeries, each binary operation (addition, subtraction, multiplication,
equality) on `(a, x)` raises `TypeError`; and equality with a
domain-misaligned TimeSeries raises `ValueError` rather than returning
`False`. -/
theorem C5_type_and_domain_errors (a : TS) (x : PyV) (b : TS)
    (hx : ∀ u, x ≠ PyV.vts u)
    (hmis : a.value.length ≠ b.value.length ∨ a.time.pyEq b.time = false) :
    pyAdd a x = .error .typeError ∧ pySub a x = .error .typeError ∧
    pyMul a x = .error .typeError ∧ pyEqOp a x = .error .typeError ∧
    pyEqOp a (.vts b) = .error .valueError := by
  have halign : alignErr a b = true := by
    simp only [alignErr, Bool.or_eq_true, bne_iff_ne, Bool.not_eq_eq_eq_not,
      Bool.not_true]
    exact hmis
  refine ⟨?_, ?_, ?_, ?_, ?_⟩
  · cases x with
    | vts u => exact absurd rfl (hx u)
    | _ => rfl
  · cases x with
    | vts u => exact absurd rfl (hx u)
    | _ => rfl
  · cases x with
    | vts u => exact absurd rfl (hx u)
    | _ => rfl
  · cases x with
    | vts u => exact absurd rfl (hx u)
    | _ => rfl
  · simp only [pyEqOp, halign, if_true]

theorem C5_witness :
    pyAdd ⟨.lst [0, 1], [1, 2], [(0, 1), (1, 2)]⟩ (.vint 3) =
      .error .typeError ∧
    pyEqOp ⟨.lst [0, 1], [1, 2], [(0, 1), (1, 2)]⟩ (.vint 3) =
      .error .typeError ∧
    pyEqOp ⟨.lst [0, 1], [1, 2], [(0, 1), (1, 2)]⟩
      (.vts ⟨.lst [0, 2], [1, 2], [(0, 1), (2, 2)]⟩) = .error .valueError := by
  obtain ⟨h1, _, _, h4, h5⟩ := C5_type_and_domain_errors
    ⟨.lst [0, 1], [1, 2], [(0, 1), (1, 2)]⟩ (.vint 3)
    ⟨.lst [0, 2], [1, 2], [(0, 1), (2, 2)]⟩
    (fun u h => PyV.noConfusion h)
    (Or.inr (by decide))
  exact ⟨h1, h4, h5⟩

end TimeSeriesPy

namespace TimeSeriesPy

theorem pyNorm_lt {len : Nat} {i : ℤ} {j : Nat} (h : pyNorm len i = some j) :
    j < len := by
  simp only [pyNorm] at h
  split at h
  · split at h
    · injection h with h
      omega
    · exact absurd h (by simp)
  · split at h
    · injection h with h
      omega
    · exact absurd h (by simp)

theorem pySetitem_int_ok (a : TS) (i : ℤ) (v : ℚ) (j : Nat)
    (h1 : pyNorm a.value.length i = some j)
    (h2 : pyNorm a.timeList.length i = some j)
    (h3 : pyNorm a.timeseries.length i = some j) :
    pySetitem a (.int i) v =
      .ok ⟨a.time, a.value.set j v,
           a.timeseries.set j (a.timeList.getD j 0, v)⟩ := by
  simp only [pySetitem, h1, h2, h3]

theorem pySetitem_int_err (a : TS) (i : ℤ) (v : ℚ)
    (h1 : pyNorm a.value.length i = none) :
    pySetitem a (.int i) v = .error .indexError := by
  simp only [pySetitem, h1]

theorem ts_len_eqs (a : TS) (ha : a.WF) :
    a.timeList.length = a.value.length ∧
    a.timeseries.length = a.value.length := by
  refine ⟨ha.1.symm, ?_⟩
  rw [ha.2, List.length_zip, ← ha.1, min_self]

/-- C6: every successfully constructed TimeSeries satisfies, and every
operation preserves, the invariant that `len(times) == len(values)` and that
the derived pair view `_timeseries` equals the aligned zip of `_time` and
`_value`; single-index value mutation keeps both `_value` and the pair view
consistent and never changes the length. -/
theorem C6_invariant_preserved :
    (∀ v t s, pyInit v t = .ok s → s.WF) ∧
    (∀ a x c, pyAdd a x = .ok c → c.WF) ∧
    (∀ a x c, pySub a x = .ok c → c.WF) ∧
    (∀ a x c, pyMul a x = .ok c → c.WF) ∧
    (∀ a c, pyNeg a = .ok c → c.WF) ∧
    (∀ a c, pyPos a = .ok c → c.WF) ∧
    (∀ a s e c, pyGetitem a (.slice s e) = .ok (.inl c) → c.WF) ∧
    (∀ a q c, pyInterpolate a q = .ok c → c.WF) ∧
    (∀ a i v c, a.WF → pySetitem a (.int i) v = .ok c →
       c.WF ∧ c.value.length = a.value.length) := by
  have hbin : ∀ (a o : TS) (w : List ℚ) (c : TS),
      (if alignErr a o then (.error .valueError : Except PyErr TS)
       else pyInit (.vlist w) a.time.toPyV) = .ok c → c.WF := by
    intro a o w c h
    split at h
    · exact absurd h (by simp)
    · exact pyInit_ok_WF h
  refine ⟨fun v t s h => pyInit_ok_WF h, ?_, ?_, ?_, ?_, ?_, ?_, ?_, ?_⟩
  · intro a x c h
    cases x with
    | vts o => exact hbin a o _ c h
    | vnone => exact absurd h (by simp [pyAdd])
    | vint i => exact absurd h (by simp [pyAdd])
    | vlist l => exact absurd h (by simp [pyAdd])
    | vrange n => exact absurd h (by simp [pyAdd])
  · intro a x c h
    cases x with
    | vts o => exact hbin a o _ c h
    | vnone => exact absurd h (by simp [pySub])
    | vint i => exact absurd h (by simp [pySub])
    | vlist l => exact absurd h (by simp [pySub])
    | vrange n => exact absurd h (by simp [pySub])
  · intro a x c h
    cases x with
    | vts o => exact hbin a o _ c h
    | vnone => exact absurd h (by simp [pyMul])
    | vint i => exact absurd h (by simp [pyMul])
    | vlist l => exact absurd h (by simp [pyMul])
    | vrange n => exact absurd h (by simp [pyMul])
  · exact fun a c h => pyInit_ok_WF h
  · exact fun a c h => pyInit_ok_WF h
  · intro a s e c h
    simp only [pyGetitem] at h
    cases hp : pyInit (.vlist (listSlice a.value s e))
        (.vlist (listSlice a.timeList s e)) with
    | error err => rw [hp] at h; exact absurd h (by simp [Except.map])
    | ok d =>
      rw [hp] at h
      simp only [Except.map] at h
      injection h with h
      injection h with h
      subst h
      exact pyInit_ok_WF hp
  · intro a q c h
    simp only [pyInterpolate] at h
    exact pyInit_ok_WF h
  · intro a i v c ha h
    obtain ⟨e1, e2⟩ := ts_len_eqs a ha
    cases hj : pyNorm a.value.length i with
    | none => rw [pySetitem_int_err a i v hj] at h; exact absurd h (by simp)
    | some j =>
      have hj2 : pyNorm a.timeList.length i = some j := by rw [e1]; exact hj
      have hj3 : pyNorm a.timeseries.length i = some j := by rw [e2]; exact hj
      rw [pySetitem_int_ok a i v j hj hj2 hj3] at h
      injection h with h
      subst h
      have hjlt : j < a.value.length := pyNorm_lt hj
      refine ⟨⟨?_, ?_⟩, by simp⟩
      · simp only [List.length_set]
        exact ha.1
      · show a.timeseries.set j (a.timeList.getD j 0, v) =
          List.zip a.timeList (a.value.set j v)
        rw [ha.2]
        exact zip_set a.timeList a.value j v 0 (by omega)

theorem C6_witness :
    (⟨.lst [0, 5, 10], [1, 2, 3], [(0, 1), (5, 2), (10, 3)]⟩ : TS).WF ∧
    (∃ c, pySetitem ⟨.lst [0, 5, 10], [1, 2, 3], [(0, 1), (5, 2), (10, 3)]⟩
       (.int 0) 99 = .ok c ∧ c.WF ∧ c.value.length = 3) := by
  have hinit : pyInit (.vlist [1, 2, 3]) (.vlist [0, 5, 10]) =
      .ok ⟨.lst [0, 5, 10], [1, 2, 3], [(0, 1), (5, 2), (10, 3)]⟩ := rfl
  have hset : pySetitem ⟨.lst [0, 5, 10], [1, 2, 3], [(0, 1), (5, 2), (10, 3)]⟩
      (.int 0) 99 =
      .ok ⟨.lst [0, 5, 10], [99, 2, 3], [(0, 99), (5, 2), (10, 3)]⟩ := rfl
  obtain ⟨hwf, hlen⟩ := C6_invariant_preserved.2.2.2.2.2.2.2.2
    ⟨.lst [0, 5, 10], [1, 2, 3], [(0, 1), (5, 2), (10, 3)]⟩ 0 99
    ⟨.lst [0, 5, 10], [99, 2, 3], [(0, 99), (5, 2), (10, 3)]⟩
    (C6_invariant_preserved.1 _ _ _ hinit) hset
  exact ⟨C6_invariant_preserved.1 _ _ _ hinit, _, hset, hwf, hlen⟩

end TimeSeriesPy

namespace TimeSeriesPy

/-- C7: the claim says an omitted, empty, or falsy time argument yields the
default 1-based index `[1, n]`.  The empty/falsy cases hold (conjuncts 2-3,
and the pair view at each index `i` has time component `i + 1`, conjuncts
5-7), but the omitted case does not: `__init__` declares `input_time` with
no default even though its docstring marks it optional, so
`TimeSeries([1,2,3])` raises `TypeError` instead of defaulting
(conjunct 1 — the code contradicts its own documentation there). -/
theorem C7_default_index :
    pyNew [PyV.vlist [1, 2, 3]] = .error .typeError ∧
    pyNew [PyV.vlist [1, 2, 3], PyV.vnone] =
      .ok ⟨.rng 3, [1, 2, 3], [(1, 1), (2, 2), (3, 3)]⟩ ∧
    pyNew [PyV.vlist [1, 2, 3], PyV.vlist []] =
      .ok ⟨.rng 3, [1, 2, 3], [(1, 1), (2, 2), (3, 3)]⟩ ∧
    TimeRep.toList (.rng 3) = [1, 2, 3] ∧
    (∀ i : Fin 3, pyGetitem ⟨.rng 3, [1, 2, 3], [(1, 1), (2, 2), (3, 3)]⟩
      (.int i.1) = .ok (.inr (((i.1 : ℚ) + 1), [(1 : ℚ), 2, 3].getD i.1 0))) := by
  refine ⟨rfl, ?_, ?_, ?_, ?_⟩
  · norm_num [pyNew, pyInit, asSeq, pyTruthy, rangeList, List.range_succ,
      TimeRep.toList]
  · norm_num [pyNew, pyInit, asSeq, pyTruthy, rangeList, List.range_succ,
      TimeRep.toList]
  · norm_num [TimeRep.toList, rangeList, List.range_succ]
  · intro i
    fin_cases i <;>
      (norm_num [pyGetitem, pyNorm, List.getD]
       try decide)

end TimeSeriesPy

namespace TimeSeriesPy

theorem listSlice_length_congr (l1 : List α) (l2 : List β) (a b : Option ℤ)
    (h : l1.length = l2.length) :
    (listSlice l1 a b).length = (listSlice l2 a b).length := by
  simp [listSlice, List.length_take, List.length_drop, h]

/-- C8: for every TimeSeries, indexing with a slice returns a new TimeSeries
whose values and times are the corresponding sub-ranges of `values` and
`times`; indexing with a single integer (including negative integers, via
Python index normalization) returns the (time, value) pair at that position;
and indexing with any other index kind raises `TypeError`. -/
theorem C8_getitem (a : TS) (ha : a.WF) :
    (∀ s e, ∃ c, pyGetitem a (.slice s e) = .ok (.inl c) ∧
       c.value = listSlice a.value s e ∧
       c.timeList = listSlice a.timeList s e) ∧
    (∀ i j, pyNorm a.value.length i = some j →
       pyGetitem a (.int i) =
         .ok (.inr (a.timeList.getD j 0, a.value.getD j 0))) ∧
    pyGetitem a .other = .error .typeError := by
  obtain ⟨e1, e2⟩ := ts_len_eqs a ha
  refine ⟨?_, ?_, rfl⟩
  · intro s e
    have hlen : (listSlice a.timeList s e).length =
        (listSlice a.value s e).length :=
      listSlice_length_congr _ _ s e e1
    by_cases hts : listSlice a.timeList s e = []
    · have hvs : listSlice a.value s e = [] := by
        have := hlen
        rw [hts] at this
        exact List.length_eq_zero.mp this.symm
      refine ⟨⟨.rng 0, [], []⟩, ?_, by rw [hvs], by rw [hts]; rfl⟩
      simp only [pyGetitem, hvs, hts]
      rw [pyInit_falsy (by simp [pyTruthy])]
      rfl
    · refine ⟨⟨.lst (listSlice a.timeList s e), listSlice a.value s e,
        List.zip (listSlice a.timeList s e) (listSlice a.value s e)⟩,
        ?_, rfl, rfl⟩
      simp only [pyGetitem]
      rw [pyInit_vlist_nonempty hts hlen]
      rfl
  · intro i j hj
    have hj3 : pyNorm a.timeseries.length i = some j := by rw [e2]; exact hj
    have hjlt : j < a.value.length := pyNorm_lt hj
    simp only [pyGetitem, hj3]
    rw [ha.2, zip_getD a.timeList a.value j 0 0 (by omega) hjlt]

theorem C8_witness :
    (∃ c, pyGetitem ⟨.lst [0, 5, 10], [1, 2, 3], [(0, 1), (5, 2), (10, 3)]⟩
       (.slice (some 1) (some 3)) = .ok (.inl c) ∧
       c.value = [2, 3] ∧ c.timeList = [5, 10]) ∧
    pyGetitem ⟨.lst [0, 5, 10], [1, 2, 3], [(0, 1), (5, 2), (10, 3)]⟩
      (.int (-1)) = .ok (.inr (10, 3)) ∧
    pyGetitem ⟨.lst [0, 5, 10], [1, 2, 3], [(0, 1), (5, 2), (10, 3)]⟩
      .other = .error .typeError := by
  obtain ⟨hsl, hint, hoth⟩ := C8_getitem
    ⟨.lst [0, 5, 10], [1, 2, 3], [(0, 1), (5, 2), (10, 3)]⟩ (by decide)
  obtain ⟨c, h1, h2, h3⟩ := hsl (some 1) (some 3)
  refine ⟨⟨c, h1, ?_, ?_⟩, ?_, hoth⟩
  · rw [h2]
    decide
  · rw [h3]
    decide
  · have h := hint (-1) 2 (by decide)
    simpa [TS.timeList, TimeRep.toList, List.getD] using h

end TimeSeriesPy

namespace TimeSeriesPy

/-- C9: for every TimeSeries and every valid integer index `i` (normalizing
a negative index per Python convention to position `j`), setting the value
at `i` to `v` changes only position `j`: the length is unchanged, the times
are unchanged, the pair at `j` becomes `(times[j], v)`, the value at `j`
becomes `v`, and every value and pair at another position is unchanged; a
slice or other non-integer index raises `TypeError` (and, the operation
being pure here, produces no mutated series at all). -/
theorem C9_setitem_frame (a : TS) (i : ℤ) (j : Nat) (v : ℚ) (ha : a.WF)
    (hj : pyNorm a.value.length i = some j) :
    (∃ c, pySetitem a (.int i) v = .ok c ∧
       c.value.length = a.value.length ∧
       c.timeList = a.timeList ∧
       c.value.getD j 0 = v ∧
       c.timeseries.getD j (0, 0) = (a.timeList.getD j 0, v) ∧
       (∀ m, m ≠ j → c.value.getD m 0 = a.value.getD m 0 ∧
          c.timeseries.getD m (0, 0) = a.timeseries.getD m (0, 0))) ∧
    (∀ s e, pySetitem a (.slice s e) v = .error .typeError) ∧
    pySetitem a .other v = .error .typeError := by
  obtain ⟨e1, e2⟩ := ts_len_eqs a ha
  have hj2 : pyNorm a.timeList.length i = some j := by rw [e1]; exact hj
  have hj3 : pyNorm a.timeseries.length i = some j := by rw [e2]; exact hj
  have hjv : j < a.value.length := pyNorm_lt hj
  refine ⟨⟨_, pySetitem_int_ok a i v j hj hj2 hj3, by simp, rfl, ?_, ?_, ?_⟩,
    fun s e => rfl, rfl⟩
  · exact getD_set_self _ j v 0 hjv
  · exact getD_set_self _ j _ (0, 0) (by omega)
  · intro m hm
    exact ⟨getD_set_ne _ j m v 0 (fun h => hm h.symm),
      getD_set_ne _ j m _ (0, 0) (fun h => hm h.symm)⟩

theorem C9_witness :
    ∃ c, pySetitem ⟨.lst [0, 5, 10], [1, 2, 3], [(0, 1), (5, 2), (10, 3)]⟩
        (.int 0) 99 = .ok c ∧
      c.value.length = 3 ∧
      c.timeseries.getD 0 (0, 0) = (0, 99) ∧
      c.timeseries.getD 1 (0, 0) = (5, 2) ∧
      c.timeseries.getD 2 (0, 0) = (10, 3) ∧
      pySetitem ⟨.lst [0, 5, 10], [1, 2, 3], [(0, 1), (5, 2), (10, 3)]⟩
        .other 99 = .error .typeError := by
  obtain ⟨⟨c, hc, hlen, _, _, hpair0, hframe⟩, _, hoth⟩ := C9_setitem_frame
    ⟨.lst [0, 5, 10], [1, 2, 3], [(0, 1), (5, 2), (10, 3)]⟩ 0 0 99
    (by decide) (by decide)
  refine ⟨c, hc, hlen.trans rfl, ?_, ?_, ?_, hoth⟩
  · simpa [TS.timeList, TimeRep.toList, List.getD] using hpair0
  · have h := (hframe 1 (by decide)).2
    simpa [List.getD] using h
  · have h := (hframe 2 (by decide)).2
    simpa [List.getD] using h

theorem bracketScan_none_of_le (tm vl : List ℚ) (n : Nat) (t : ℚ) (c : Nat)
    (h : n ≤ c) : bracketScan tm vl n t c = (none, c) := by
  rw [bracketScan, Nat.sub_eq_zero_of_le h]
  rfl

theorem interpGoC_none_of_le (tm vl : List ℚ) (n : Nat) (qs : List ℚ) (c : Nat)
    (h : n ≤ c) : interpGoC tm vl n qs c = ([], c) := by
  induction qs with
  | nil => rfl
  | cons q qs' ih =>
    simp only [interpGoC, bracketScan_none_of_le tm vl n q c h]
    exact ih

/-- C10: for every TimeSeries containing exactly one (time, value) pair and
every non-empty query sequence, `interpolate` produces no interpolated
values at all (the bracket-scan loop body never executes, not even the
clamp branches) and raises `ValueError` when constructing the result,
because the empty value list does not match the non-empty query sequence in
length; the same `ValueError` arises for any query time on which the
forward cursor exhausts the brackets without a match (second conjunct: the
scan for `t`, started from the cursor left by the preceding queries `p`,
returns nothing). -/
theorem C10_interpolate_valueError :
    (∀ (ts : TS) (qs : List ℚ), ts.WF → ts.timeList.length = 1 → qs ≠ [] →
       (interpGoC ts.timeList ts.value ts.timeList.length qs 1).1 = [] ∧
       pyInterpolate ts qs = .error .valueError) ∧
    (∀ (ts : TS) (p : List ℚ) (t : ℚ) (r : List ℚ),
       (bracketScan ts.timeList ts.value ts.timeList.length t
         (interpGoC ts.timeList ts.value ts.timeList.length p 1).2).1 = none →
       pyInterpolate ts (p ++ t :: r) = .error .valueError) := by
  constructor
  · intro ts qs _ hn1 hqs
    have hgo : interpGoC ts.timeList ts.value ts.timeList.length qs 1 =
        ([], 1) := interpGoC_none_of_le _ _ _ qs 1 (by omega)
    refine ⟨by rw [hgo], ?_⟩
    simp only [pyInterpolate, hgo]
    exact pyInit_vlist_mismatch hqs (by simpa using hqs)
  · intro ts p t r hnone
    have hlt : (interpGoC ts.timeList ts.value ts.timeList.length
        (p ++ t :: r) 1).1.length < (p ++ t :: r).length := by
      rw [interpGoC_append]
      cases hsc : bracketScan ts.timeList ts.value ts.timeList.length t
          (interpGoC ts.timeList ts.value ts.timeList.length p 1).2 with
      | mk o c2 =>
        have ho : o = none := by
          have hx := hnone
          rw [hsc] at hx
          exact hx
        subst ho
        simp only [interpGoC, hsc, List.length_append]
        have h1 := interpGoC_length_le ts.timeList ts.value
          ts.timeList.length p 1
        have h2 := interpGoC_length_le ts.timeList ts.value
          ts.timeList.length r c2
        simp only [List.length_cons]
        omega
    simp only [pyInterpolate]
    exact pyInit_vlist_mismatch (by simp) (by omega)

theorem C10_witness :
    (interpGoC (TS.timeList ⟨.lst [0], [1], [(0, 1)]⟩) [1] 1 [5] 1).1 = [] ∧
    pyInterpolate ⟨.lst [0], [1], [(0, 1)]⟩ [5] = .error .valueError ∧
    pyInterpolate ⟨.lst [0, 5, 10], [1, 2, 3], [(0, 1), (5, 2), (10, 3)]⟩
      [7, 1] = .error .valueError := by
  obtain ⟨h1, h2⟩ := C10_interpolate_valueError.1
    ⟨.lst [0], [1], [(0, 1)]⟩ [5] (by decide) (by decide) (by decide)
  have h3 := C10_interpolate_valueError.2
    ⟨.lst [0, 5, 10], [1, 2, 3], [(0, 1), (5, 2), (10, 3)]⟩ [7] 1 []
    (by decide)
  exact ⟨h1, h2, h3⟩

end TimeSeriesPy
